import Mathlib

/-!
Verification of the command/response encoding layer of python-dali
(`dali/command.py`): the command taxonomy with its bit-level
encode/decode rules, the registry-based frame dispatcher, and the
response interpretation logic.

The `dali.frame` and `dali.address` modules are consumed by
`command.py` but are not part of the verified source; they are
modelled from the specification of their interface (spec §6).
-/

namespace Dali

/-- Modelled from the spec: the frame abstraction (module `dali.frame`,
not part of the verified source).  A forward frame is a fixed-width bit
container; `data` holds the bit pattern, `size` the width in bits.
Slice access uses MSB-first notation: `f[hi:lo]` reads the bits from
`hi` down to `lo` as an integer, `f[i]` reads one bit as a boolean. -/
structure ForwardFrame where
  size : Nat
  data : Nat
deriving DecidableEq, Repr

/-- Construct a 16-bit forward frame from an integer, as
`frame.ForwardFrame(16, n)` does; the container keeps 16 bits. -/
def ForwardFrame.mk16 (n : Nat) : ForwardFrame := ⟨16, n % 65536⟩

/-- Construct a 16-bit forward frame from a tuple of two bytes, as
`frame.ForwardFrame(16, (hi, lo))` does. -/
def ForwardFrame.mkBytes16 (hi lo : Nat) : ForwardFrame :=
  ⟨16, (hi % 256) * 256 + lo % 256⟩

/-- Modelled from the spec: single-bit read access `f[i]` returning a
boolean. -/
def ForwardFrame.bit (f : ForwardFrame) (i : Nat) : Bool :=
  f.data / 2 ^ i % 2 = 1

/-- Modelled from the spec: slice read access `f[hi:lo]` returning the
bits from `hi` down to `lo` as an integer. -/
def ForwardFrame.slice (f : ForwardFrame) (hi lo : Nat) : Nat :=
  f.data / 2 ^ lo % 2 ^ (hi - lo + 1)

/-- Modelled from the spec: a backward frame is an 8-bit payload plus
an `error` flag (true when the transport detected colliding replies /
invalid framing). -/
structure BackwardFrame where
  data : Nat
  error : Bool
deriving DecidableEq, Repr

/-- Modelled from the spec: slice access `bf[7:0]` on a backward frame
returns the 8-bit payload. -/
def BackwardFrame.payload (bf : BackwardFrame) : Nat := bf.data % 256

/-- Modelled from the spec: single-bit access `bf[i]` on a backward
frame. -/
def BackwardFrame.bit (bf : BackwardFrame) (i : Nat) : Bool :=
  bf.data / 2 ^ i % 2 = 1

/-- Modelled from the spec: the address abstraction (module
`dali.address`, not part of the verified source).  `add_to_frame`
writes the addressing bits of a destination into a frame being built;
`from_frame` decodes the addressing field of a frame back into an
address, or fails. -/
structure AddressScheme (Addr : Type) where
  add_to_frame : Addr → ForwardFrame → ForwardFrame
  from_frame : ForwardFrame → Option Addr

/-- A concrete instance of the address abstraction used to exercise
the theorems: short addresses 0..63 written into the frame's
addressing field, bits 15 down to 9, as `address << 1` (bit 9 clear
marks a short address).  Modelled from the spec, which places the
addressing field in the bits above the opcode byte and the
discriminator bit. -/
def shortScheme : AddressScheme Nat where
  add_to_frame a f :=
    ⟨f.size, f.data % 512 + (a % 64) * 2 % 128 * 512⟩
  from_frame f :=
    if f.size = 16 ∧ f.data / 512 % 2 = 0 then some (f.data / 1024)
    else none

/-- The exceptions raised by `Response.value` and
`BitmapResponse.status`: `MissingResponse` ("response was absent where
a response was expected") and `ResponseError` ("response had
unexpected framing error"). -/
inductive RespError where
  | missingResponse
  | responseError
deriving DecidableEq, Repr

/-- `Response.value` from `dali/command.py`.  A response type is
described by its class attributes `_expected` and `_error_acceptable`
(both `False` on the base class) and wraps an optional backward
frame.  Raising an exception is modelled as returning `.error`. -/
def Response.value (expected errorAcceptable : Bool)
    (v : Option BackwardFrame) : Except RespError (Option BackwardFrame) :=
  if v = none ∧ expected then .error .missingResponse
  else if (v.elim false fun bf => bf.error) && !errorAcceptable then
    .error .responseError
  else .ok v

/-- `YesNoResponse.value` from `dali/command.py`: overrides the base
property, collapsing the response to a boolean without consulting the
error flag. -/
def YesNoResponse.value (v : Option BackwardFrame) : Bool :=
  v.isSome

/-- The loop inside `BitmapResponse.status`: scan the payload from bit
0 upward, appending each configured name that is non-empty and whose
bit is set. -/
def BitmapResponse.statusLoop : List String → Nat → List String
  | [], _ => []
  | b :: rest, v =>
    if v % 2 = 1 ∧ b ≠ "" then b :: BitmapResponse.statusLoop rest (v / 2)
    else BitmapResponse.statusLoop rest (v / 2)

/-- `BitmapResponse.status` from `dali/command.py`.  `BitmapResponse`
has `_expected = True`; `bits` is the per-type ordered list of bit
names, least significant first. -/
def BitmapResponse.status (bits : List String)
    (v : Option BackwardFrame) : Except RespError (List String) :=
  match v with
  | none => .error .missingResponse
  | some bf =>
    if bf.error then .ok ["response received with framing error"]
    else .ok (BitmapResponse.statusLoop bits bf.payload)

/-- The exceptions raised by command constructors in
`dali/command.py`: `NotImplementedError` when `_cmdval` is unset,
`TypeError` for a wrong argument count, `ValueError` for a parameter
of the wrong type or outside its declared range. -/
inductive CmdError where
  | notImplemented
  | typeError
  | valueError
deriving DecidableEq, Repr

/-- A `GeneralCommand` instance: the destination address object, the
4-bit parameter (`0` when the type takes none) and the owned forward
frame. -/
structure GeneralCmd (Addr : Type) where
  destination : Addr
  param : Nat
  frame : ForwardFrame

/-- `GeneralCommand.__init__` from `dali/command.py`.  A concrete
subtype is described by its class attributes `cmdval` (`none` while
`_cmdval` is still `None`) and `hasparam`; `args` are the positional
arguments after `destination`.  The destination is taken as an
address object already (per `_check_destination`, an object with
`add_to_frame` is returned unchanged).  Builds the 16-bit value
`0x100 | cmdval | param` and lets the address write its bits. -/
def GeneralCommand.init {Addr : Type} (A : AddressScheme Addr)
    (cmdval : Option Nat) (hasparam : Bool) (destination : Addr)
    (args : List Int) : Except CmdError (GeneralCmd Addr) :=
  match cmdval with
  | none => .error .notImplemented
  | some cv =>
    if hasparam then
      match args with
      | [param] =>
        if param < 0 ∨ param > 15 then .error .valueError
        else
          .ok ⟨destination, param.toNat,
               A.add_to_frame destination
                 (ForwardFrame.mk16 (0x100 ||| cv ||| param.toNat))⟩
      | _ => .error .typeError
    else
      match args with
      | [] =>
        .ok ⟨destination, 0,
             A.add_to_frame destination
               (ForwardFrame.mk16 (0x100 ||| cv ||| 0))⟩
      | _ => .error .typeError

/-- `GeneralCommand.from_frame` from `dali/command.py`.  `isBase` is
true exactly when the receiving class is `GeneralCommand` itself (the
`cls == GeneralCommand` guard).  A `cmdval` of `none` models a
subclass whose `_cmdval` is still `None`: in Python the comparison of
an integer with `None` is always unequal, so no frame matches.  On a
match the instance is rebuilt through `__init__`, which cannot fail
under the guards. -/
def GeneralCommand.from_frame {Addr : Type} (A : AddressScheme Addr)
    (isBase : Bool) (cmdval : Option Nat) (hasparam : Bool)
    (f : ForwardFrame) : Option (GeneralCmd Addr) :=
  if isBase then none
  else if f.size ≠ 16 then none
  else if f.bit 8 = false then none
  else
    let b := f.slice 7 0
    match cmdval with
    | none => none
    | some cv =>
      if hasparam then
        if b &&& 0xf0 ≠ cv then none
        else
          match A.from_frame f with
          | none => none
          | some addr =>
            (GeneralCommand.init A (some cv) hasparam addr
              [(b &&& 0x0f : Nat)]).toOption
      else
        if b ≠ cv then none
        else
          match A.from_frame f with
          | none => none
          | some addr =>
            (GeneralCommand.init A (some cv) hasparam addr []).toOption

/-- A `SpecialCommand` instance: just the 8-bit parameter (`0` when
the type takes none). -/
structure SpecialCmd where
  param : Nat
deriving DecidableEq, Repr

/-- `SpecialCommand.__init__` from `dali/command.py`.  `hasparam` is
the class attribute `_hasparam`; `args` are the positional arguments.
Note the constructor never consults `_cmdval`. -/
def SpecialCommand.init (hasparam : Bool) (args : List Int) :
    Except CmdError SpecialCmd :=
  if hasparam then
    match args with
    | [param] =>
      if param < 0 ∨ param > 255 then .error .valueError
      else .ok ⟨param.toNat⟩
    | _ => .error .typeError
  else
    match args with
    | [] => .ok ⟨0⟩
    | _ => .error .typeError

/-- `SpecialCommand.frame` from `dali/command.py`: the transmitted
frame is `ForwardFrame(16, (cmdval, param))`. -/
def SpecialCommand.frame (cmdval : Nat) (c : SpecialCmd) : ForwardFrame :=
  ForwardFrame.mkBytes16 cmdval c.param

/-- `SpecialCommand.from_frame` from `dali/command.py`.  `isBase` is
true exactly when the receiving class is `SpecialCommand` itself. -/
def SpecialCommand.from_frame (isBase : Bool) (cmdval : Option Nat)
    (hasparam : Bool) (f : ForwardFrame) : Option SpecialCmd :=
  if isBase then none
  else if f.size ≠ 16 then none
  else
    match cmdval with
    | none => none
    | some cv =>
      if f.slice 15 8 = cv then
        if hasparam then
          (SpecialCommand.init hasparam [(f.slice 7 0 : Nat)]).toOption
        else if f.slice 7 0 = 0 then
          (SpecialCommand.init hasparam []).toOption
        else none
      else none

/-- A `ShortAddrSpecialCommand` instance: the 6-bit short address. -/
structure ShortAddrCmd where
  address : Nat
deriving DecidableEq, Repr

/-- `ShortAddrSpecialCommand.__init__` from `dali/command.py`. -/
def ShortAddrSpecialCommand.init (address : Int) :
    Except CmdError ShortAddrCmd :=
  if address < 0 ∨ address > 63 then .error .valueError
  else .ok ⟨address.toNat⟩

/-- `ShortAddrSpecialCommand.frame` from `dali/command.py`: the low
byte is `(address << 1) | 1`. -/
def ShortAddrSpecialCommand.frame (cmdval : Nat) (c : ShortAddrCmd) :
    ForwardFrame :=
  ForwardFrame.mkBytes16 cmdval ((c.address <<< 1) ||| 1)

/-- `ShortAddrSpecialCommand.from_frame` from `dali/command.py`:
additionally requires bit 7 clear and bit 0 set, recovering the
address from bits 6..1. -/
def ShortAddrSpecialCommand.from_frame (isBase : Bool)
    (cmdval : Option Nat) (f : ForwardFrame) : Option ShortAddrCmd :=
  if isBase then none
  else if f.size ≠ 16 then none
  else
    match cmdval with
    | none => none
    | some cv =>
      if f.slice 15 8 = cv then
        if f.bit 7 = false ∧ f.bit 0 = true then
          (ShortAddrSpecialCommand.init (f.slice 6 1 : Nat)).toOption
        else none
      else none

/-- One entry of the command registry: the declared `_devicetype` of
a registered command type together with its `from_frame` decode
function. -/
structure RegEntry (α : Type) where
  devicetype : Nat
  fromFrame : ForwardFrame → Option α

/-- The result of the dispatcher: either an instance of a registered
command type, or a plain base `Command` wrapping the frame. -/
inductive Decoded (α : Type) where
  | typed : α → Decoded α
  | base : ForwardFrame → Decoded α
deriving DecidableEq

/-- `Command.from_frame` from `dali/command.py` (dispatch path, i.e.
after the `cls != Command` guard): iterate the registry in order,
skip entries whose `_devicetype` differs from the requested one, call
each remaining entry's decode, return the first match; fall back to a
base `Command` wrapping the frame. -/
def Command.from_frame {α : Type} (registry : List (RegEntry α))
    (f : ForwardFrame) (devicetype : Nat) : Decoded α :=
  match registry with
  | [] => .base f
  | dc :: rest =>
    if dc.devicetype ≠ devicetype then
      Command.from_frame rest f devicetype
    else
      match dc.fromFrame f with
      | some r => .typed r
      | none => Command.from_frame rest f devicetype

/-- `CommandTracker.__init__` from `dali/command.py`: the metaclass
runs once per class definition.  The tracked state is `none` before
any class uses the metaclass; the first class (base `Command`)
creates the empty list, every later class appends itself. -/
def CommandTracker.init {α : Type} (state : Option (List α)) (cls : α) :
    Option (List α) :=
  match state with
  | none => some []
  | some l => some (l ++ [cls])

/-- The registry produced by processing a sequence of class
definitions in declaration order, starting from no tracked state. -/
def CommandTracker.track {α : Type} (decls : List α) : Option (List α) :=
  decls.foldl CommandTracker.init none

/-- The active-flag list as the spec describes it: the non-empty
configured bit names whose corresponding payload bit is set, in
ascending bit-index order, empty names skipped but still consuming a
bit position. -/
def BitmapResponse.statusSpec (bits : List String) (v : Nat) : List String :=
  (List.range bits.length).filterMap fun i =>
    match bits.get? i with
    | some b => if v.testBit i ∧ b ≠ "" then some b else none
    | none => none

end Dali

namespace Dali

lemma statusLoop_eq_statusSpec (bits : List String) (v : Nat) :
    BitmapResponse.statusLoop bits v = BitmapResponse.statusSpec bits v := by
  induction bits generalizing v with
  | nil => rfl
  | cons b rest ih =>
    unfold BitmapResponse.statusLoop
    rw [ih (v / 2)]
    unfold BitmapResponse.statusSpec
    simp only [List.length_cons, List.range_succ_eq_map, List.filterMap_cons,
      List.filterMap_map]
    by_cases hv : v % 2 = 1 <;> by_cases hb : b = "" <;>
      simp [hv, hb, Nat.testBit_succ, Nat.testBit_zero, Function.comp_def]

/-- C3 counterexample: reading `value` on a base `Response` built
with `None` does not raise `MissingResponse`; it returns the absent
value, because the base class sets `_expected = False`. -/
theorem response_value_none_counterexample :
    Response.value false false none = Except.ok none ∧
    Response.value false false none ≠ Except.error RespError.missingResponse :=
  ⟨rfl, fun h => nomatch h⟩

/-- C3 (amended): reading `value` on a base `Response` built with
`None` returns the absent value without raising, because the base
class sets `_expected = False`; `MissingResponse` is raised on a
missing frame exactly when the concrete response type sets
`_expected = True`. -/
theorem response_value_missing_amended :
    (∀ ea : Bool, Response.value false ea none = Except.ok none) ∧
    (∀ ea : Bool,
      Response.value true ea none = Except.error RespError.missingResponse) :=
  ⟨fun _ => rfl, fun _ => rfl⟩

/-- C5: `YesNoResponse.value` is true for every present backward
frame regardless of its error flag, false for an absent one, and
never raises (it is total by definition). -/
theorem yesno_value_spec :
    (∀ bf : BackwardFrame, YesNoResponse.value (some bf) = true) ∧
    YesNoResponse.value none = false :=
  ⟨fun _ => rfl, rfl⟩

/-- C6: with a present backward frame, `Response.value` raises
`ResponseError` when the frame's error flag is set and the type does
not tolerate framing errors, and returns the frame without raising
when the flag is clear or the type tolerates errors. -/
theorem response_value_framing_spec (expected ea : Bool) (bf : BackwardFrame) :
    (bf.error = true → ea = false →
      Response.value expected ea (some bf) = Except.error RespError.responseError) ∧
    (bf.error = false → Response.value expected ea (some bf) = Except.ok (some bf)) ∧
    (ea = true → Response.value expected ea (some bf) = Except.ok (some bf)) := by
  refine ⟨fun herr hea => ?_, fun herr => ?_, fun hea => ?_⟩ <;>
    simp [Response.value, *]

/-- C6 witness: the theorem applied at concrete responses. -/
theorem response_value_framing_spec_witness :
    Response.value false false (some ⟨5, true⟩) =
      Except.error RespError.responseError ∧
    Response.value true false (some ⟨5, false⟩) = Except.ok (some ⟨5, false⟩) ∧
    Response.value false true (some ⟨5, true⟩) = Except.ok (some ⟨5, true⟩) :=
  ⟨(response_value_framing_spec false false ⟨5, true⟩).1 rfl rfl,
   (response_value_framing_spec true false ⟨5, false⟩).2.1 rfl,
   (response_value_framing_spec false true ⟨5, true⟩).2.2 rfl⟩

/-- C4: `BitmapResponse.status` raises `MissingResponse` on an absent
frame; returns the collision indication when the framing-error flag
is set; and otherwise returns exactly the non-empty configured bit
names whose payload bit is set, in ascending bit-index order, with
empty names skipped but still consuming a bit position — in
particular bits `["a", "", "c"]` with payload `0b101` give
`["a", "c"]`. -/
theorem bitmap_status_spec (bits : List String) (d : Nat) :
    BitmapResponse.status bits none = Except.error RespError.missingResponse ∧
    BitmapResponse.status bits (some ⟨d, true⟩) =
      Except.ok ["response received with framing error"] ∧
    BitmapResponse.status bits (some ⟨d, false⟩) =
      Except.ok (BitmapResponse.statusSpec bits (d % 256)) ∧
    BitmapResponse.status ["a", "", "c"] (some ⟨5, false⟩) =
      Except.ok ["a", "c"] := by
  refine ⟨rfl, rfl, ?_, rfl⟩
  simp [BitmapResponse.status, BackwardFrame.payload, statusLoop_eq_statusSpec]

/-- C7: constructing with a parameter one past the declared range
raises `ValueError` (16 for the 4-bit `GeneralCommand` parameter,
256 for the 8-bit `SpecialCommand` parameter, 64 for the
`ShortAddrSpecialCommand` short address), and the maximum in-range
value (15, 255, 63) always succeeds. -/
theorem constructor_boundary_spec {Addr : Type} (A : AddressScheme Addr)
    (d : Addr) (cv : Nat) :
    GeneralCommand.init A (some cv) true d [16] = Except.error CmdError.valueError ∧
    (GeneralCommand.init A (some cv) true d [15]).isOk = true ∧
    SpecialCommand.init true [256] = Except.error CmdError.valueError ∧
    (SpecialCommand.init true [255]).isOk = true ∧
    ShortAddrSpecialCommand.init 64 = Except.error CmdError.valueError ∧
    (ShortAddrSpecialCommand.init 63).isOk = true := by
  refine ⟨?_, ?_, rfl, rfl, rfl, rfl⟩ <;>
    simp [GeneralCommand.init, Except.isOk, Except.toBool]

lemma from_frame_skip {α : Type} (e : RegEntry α) (reg : List (RegEntry α))
    (f : ForwardFrame) (dt : Nat) (h : e.devicetype ≠ dt) :
    Command.from_frame (e :: reg) f dt = Command.from_frame reg f dt := by
  simp [Command.from_frame, h]

lemma from_frame_all_none {α : Type} (reg : List (RegEntry α))
    (f : ForwardFrame) (dt : Nat)
    (h : ∀ e ∈ reg, e.devicetype = dt → e.fromFrame f = none) :
    Command.from_frame reg f dt = Decoded.base f := by
  induction reg with
  | nil => rfl
  | cons e rest ih =>
    by_cases he : e.devicetype = dt
    · have hnone := h e (List.mem_cons_self e rest) he
      simp [Command.from_frame, he, hnone]
      exact ih fun x hx => h x (List.mem_cons_of_mem e hx)
    · rw [from_frame_skip e rest f dt he]
      exact ih fun x hx => h x (List.mem_cons_of_mem e hx)

/-- C2: the dispatcher `Command.from_frame` iterates the registry in
declaration order, skips entries whose declared device type differs
from the requested one, and returns the first non-no-match result;
with no match it returns a base `Command` wrapping the frame
unchanged, so it never returns `None`; a frame matched by two
registered entries resolves to the earlier one. -/
theorem dispatch_from_frame_spec {α : Type} :
    (∀ (reg : List (RegEntry α)) (f : ForwardFrame) (dt : Nat),
      (∀ e ∈ reg, e.devicetype = dt → e.fromFrame f = none) →
      Command.from_frame reg f dt = Decoded.base f) ∧
    (∀ (pre : List (RegEntry α)) (e : RegEntry α) (post : List (RegEntry α))
        (c : α) (f : ForwardFrame) (dt : Nat),
      e.devicetype = dt → e.fromFrame f = some c →
      (∀ x ∈ pre, x.devicetype = dt → x.fromFrame f = none) →
      Command.from_frame (pre ++ e :: post) f dt = Decoded.typed c) ∧
    (∀ (e : RegEntry α) (reg : List (RegEntry α)) (f : ForwardFrame) (dt : Nat),
      e.devicetype ≠ dt →
      Command.from_frame (e :: reg) f dt = Command.from_frame reg f dt) ∧
    (∀ (reg : List (RegEntry α)) (f : ForwardFrame) (dt : Nat),
      Command.from_frame reg f dt = Decoded.base f ∨
      ∃ c, Command.from_frame reg f dt = Decoded.typed c) := by
  refine ⟨from_frame_all_none, ?_, from_frame_skip, ?_⟩
  · intro pre e post c f dt he hc hpre
    induction pre with
    | nil => simp [Command.from_frame, he, hc]
    | cons x rest ih =>
      by_cases hx : x.devicetype = dt
      · have hnone := hpre x (List.mem_cons_self x rest) hx
        simp only [List.cons_append, Command.from_frame, hx, ne_eq,
          not_true_eq_false, if_false, hnone]
        exact ih fun y hy => hpre y (List.mem_cons_of_mem x hy)
      · rw [List.cons_append, from_frame_skip x _ f dt hx]
        exact ih fun y hy => hpre y (List.mem_cons_of_mem x hy)
  · intro reg f dt
    induction reg with
    | nil => exact Or.inl rfl
    | cons e rest ih =>
      by_cases he : e.devicetype = dt
      · cases hc : e.fromFrame f with
        | none => simpa [Command.from_frame, he, hc] using ih
        | some c => exact Or.inr ⟨c, by simp [Command.from_frame, he, hc]⟩
      · rw [from_frame_skip e rest f dt he]
        exact ih

/-- C2 witness: concrete registries exercising fallback, priority and
device-type filtering. -/
theorem dispatch_from_frame_spec_witness :
    Command.from_frame ([] : List (RegEntry Nat)) ⟨16, 7⟩ 0 =
      Decoded.base ⟨16, 7⟩ ∧
    Command.from_frame
      [(⟨0, fun _ => some 1⟩ : RegEntry Nat), ⟨0, fun _ => some 2⟩]
      ⟨16, 7⟩ 0 = Decoded.typed 1 ∧
    Command.from_frame
      [(⟨1, fun _ => some 1⟩ : RegEntry Nat), ⟨0, fun _ => some 2⟩]
      ⟨16, 7⟩ 0 =
      Command.from_frame [(⟨0, fun _ => some 2⟩ : RegEntry Nat)] ⟨16, 7⟩ 0 :=
  ⟨(dispatch_from_frame_spec).1 [] ⟨16, 7⟩ 0 (fun e he => nomatch he),
   (dispatch_from_frame_spec).2.1 [] ⟨0, fun _ => some 1⟩
     [⟨0, fun _ => some 2⟩] 1 ⟨16, 7⟩ 0 rfl rfl (fun e he => nomatch he),
   (dispatch_from_frame_spec).2.2.1 ⟨1, fun _ => some 1⟩
     [⟨0, fun _ => some 2⟩] ⟨16, 7⟩ 0 (by decide)⟩

lemma tracker_foldl {α : Type} (rest : List α) (l : List α) :
    rest.foldl CommandTracker.init (some l) = some (l ++ rest) := by
  induction rest generalizing l with
  | nil => simp
  | cons c cs ih =>
    simp only [List.foldl_cons, CommandTracker.init, ih]
    simp

/-- C9: processing the class declarations in declaration order
populates the registry exactly once with every class declared after
the base `Command`, in declaration order; the dispatcher only reads
the resulting list (it is a pure function of it). -/
theorem tracker_registry_spec {α : Type} (base : α) (rest : List α) :
    CommandTracker.track (base :: rest) = some rest := by
  unfold CommandTracker.track
  simp only [List.foldl_cons, CommandTracker.init, tracker_foldl]
  simp

lemma from_frame_drop_none {α : Type} (pre : List (RegEntry α))
    (e : RegEntry α) (post : List (RegEntry α)) (f : ForwardFrame) (dt : Nat)
    (h : ∀ g, e.fromFrame g = none) :
    Command.from_frame (pre ++ e :: post) f dt =
      Command.from_frame (pre ++ post) f dt := by
  induction pre with
  | nil =>
    by_cases he : e.devicetype = dt
    · simp [Command.from_frame, he, h f]
    · simpa using from_frame_skip e post f dt he
  | cons x rest ih =>
    by_cases hx : x.devicetype = dt
    · cases hc : x.fromFrame f with
      | none => simpa [Command.from_frame, hx, hc] using ih
      | some c => simp [Command.from_frame, hx, hc]
    · simpa [from_frame_skip x _ f dt hx] using ih

/-- C10: the intermediate classes reject every frame — the
class-identity guards make `GeneralCommand`, `SpecialCommand` and
`ShortAddrSpecialCommand` themselves never match, and a subclass
whose `_cmdval` is still unset can never satisfy the opcode
comparison — and a registry entry that matches no frame never
affects the dispatcher's result, so the dispatcher only ever returns
an instance produced by a fully-specified concrete subtype or the
opaque base fallback. -/
theorem intermediate_no_match_spec {Addr : Type} (A : AddressScheme Addr) :
    (∀ (cmdval : Option Nat) (hasparam : Bool) (f : ForwardFrame),
      GeneralCommand.from_frame A true cmdval hasparam f = none) ∧
    (∀ (hasparam : Bool) (f : ForwardFrame),
      GeneralCommand.from_frame A false none hasparam f = none) ∧
    (∀ (cmdval : Option Nat) (hasparam : Bool) (f : ForwardFrame),
      SpecialCommand.from_frame true cmdval hasparam f = none) ∧
    (∀ (hasparam : Bool) (f : ForwardFrame),
      SpecialCommand.from_frame false none hasparam f = none) ∧
    (∀ (cmdval : Option Nat) (f : ForwardFrame),
      ShortAddrSpecialCommand.from_frame true cmdval f = none) ∧
    (∀ f : ForwardFrame,
      ShortAddrSpecialCommand.from_frame false none f = none) ∧
    (∀ {α : Type} (pre : List (RegEntry α)) (e : RegEntry α)
        (post : List (RegEntry α)) (f : ForwardFrame) (dt : Nat),
      (∀ g, e.fromFrame g = none) →
      Command.from_frame (pre ++ e :: post) f dt =
        Command.from_frame (pre ++ post) f dt) := by
  refine ⟨?_, ?_, ?_, ?_, ?_, ?_, from_frame_drop_none⟩ <;>
    intros <;> simp [GeneralCommand.from_frame, SpecialCommand.from_frame,
      ShortAddrSpecialCommand.from_frame]

lemma lor_nibble :
    ∀ j, j < 16 → ∀ q, q < 16 → (256 ||| (16 * j) ||| q) = 256 + 16 * j + q := by
  decide

lemma and_nibble :
    ∀ j, j < 16 → ∀ q, q < 16 →
      ((16 * j + q) &&& 0xf0 = 16 * j) ∧ ((16 * j + q) &&& 0x0f = q) := by
  decide

set_option maxRecDepth 4096 in
lemma lor_byte : ∀ cv, cv < 256 → (256 ||| cv ||| 0) = 256 + cv := by
  decide

lemma shl_or_one : ∀ a, a < 64 → ((a <<< 1) ||| 1) = 2 * a + 1 := by
  decide

lemma general_init_hasparam_ok {Addr : Type} (A : AddressScheme Addr)
    (cv : Nat) (d : Addr) (p : Nat) (hp : p ≤ 15) :
    GeneralCommand.init A (some cv) true d [(p : Int)] =
      Except.ok ⟨d, p, A.add_to_frame d (ForwardFrame.mk16 (0x100 ||| cv ||| p))⟩ := by
  unfold GeneralCommand.init
  have h1 : ¬((p : Int) < 0 ∨ (p : Int) > 15) := by omega
  simp [h1, hp]

lemma general_init_noparam_ok {Addr : Type} (A : AddressScheme Addr)
    (cv : Nat) (d : Addr) :
    GeneralCommand.init A (some cv) false d [] =
      Except.ok ⟨d, 0, A.add_to_frame d (ForwardFrame.mk16 (0x100 ||| cv ||| 0))⟩ :=
  rfl

lemma general_from_frame_ok_hasparam {Addr : Type} (A : AddressScheme Addr)
    (cv : Nat) (f : ForwardFrame) (a : Addr) (hs : f.size = 16)
    (hb : f.bit 8 = true) (ha : A.from_frame f = some a)
    (hop : f.slice 7 0 &&& 0xf0 = cv) :
    GeneralCommand.from_frame A false (some cv) true f =
      some ⟨a, f.slice 7 0 &&& 0x0f,
        A.add_to_frame a
          (ForwardFrame.mk16 (0x100 ||| cv ||| (f.slice 7 0 &&& 0x0f)))⟩ := by
  have hle : f.slice 7 0 &&& 0x0f ≤ 15 := Nat.and_le_right
  simp [GeneralCommand.from_frame, hs, hb, ha, hop,
    general_init_hasparam_ok A cv a _ hle, Except.toOption]

lemma general_from_frame_ok_noparam {Addr : Type} (A : AddressScheme Addr)
    (cv : Nat) (f : ForwardFrame) (a : Addr) (hs : f.size = 16)
    (hb : f.bit 8 = true) (ha : A.from_frame f = some a)
    (hop : f.slice 7 0 = cv) :
    GeneralCommand.from_frame A false (some cv) false f =
      some ⟨a, 0, A.add_to_frame a (ForwardFrame.mk16 (0x100 ||| cv ||| 0))⟩ := by
  simp [GeneralCommand.from_frame, hs, hb, ha, hop,
    general_init_noparam_ok, Except.toOption]

/-- C8: `GeneralCommand.from_frame` on a concrete subtype returns no
match when the frame is not 16 bits, when the direct-arc-power
discriminator bit 8 is clear, or when the address abstraction fails
to decode; with a 4-bit parameter it matches the high nibble of the
low byte against the opcode and recovers the low nibble as the
parameter, and without one it requires the low byte to equal the
opcode exactly. -/
theorem general_from_frame_spec {Addr : Type} (A : AddressScheme Addr)
    (cv : Nat) (hasparam : Bool) (f : ForwardFrame) :
    (f.size ≠ 16 →
      GeneralCommand.from_frame A false (some cv) hasparam f = none) ∧
    (f.bit 8 = false →
      GeneralCommand.from_frame A false (some cv) hasparam f = none) ∧
    (A.from_frame f = none →
      GeneralCommand.from_frame A false (some cv) hasparam f = none) ∧
    (f.slice 7 0 &&& 0xf0 ≠ cv →
      GeneralCommand.from_frame A false (some cv) true f = none) ∧
    (f.slice 7 0 ≠ cv →
      GeneralCommand.from_frame A false (some cv) false f = none) ∧
    (∀ a, f.size = 16 → f.bit 8 = true → A.from_frame f = some a →
      f.slice 7 0 &&& 0xf0 = cv →
      GeneralCommand.from_frame A false (some cv) true f =
        some ⟨a, f.slice 7 0 &&& 0x0f,
          A.add_to_frame a
            (ForwardFrame.mk16 (0x100 ||| cv ||| (f.slice 7 0 &&& 0x0f)))⟩) ∧
    (∀ a, f.size = 16 → f.bit 8 = true → A.from_frame f = some a →
      f.slice 7 0 = cv →
      GeneralCommand.from_frame A false (some cv) false f =
        some ⟨a, 0, A.add_to_frame a (ForwardFrame.mk16 (0x100 ||| cv ||| 0))⟩) := by
  refine ⟨?_, ?_, ?_, ?_, ?_, ?_, ?_⟩
  · intro h
    simp [GeneralCommand.from_frame, h]
  · intro h
    by_cases hs : f.size = 16 <;>
      cases hasparam <;> simp [GeneralCommand.from_frame, hs, h]
  · intro h
    by_cases hs : f.size = 16 <;> by_cases hb : f.bit 8 = false <;>
      cases hasparam <;> simp [GeneralCommand.from_frame, hs, hb, h]
  · intro h
    by_cases hs : f.size = 16 <;> by_cases hb : f.bit 8 = false <;>
      simp [GeneralCommand.from_frame, hs, hb, h]
  · intro h
    by_cases hs : f.size = 16 <;> by_cases hb : f.bit 8 = false <;>
      simp [GeneralCommand.from_frame, hs, hb, h]
  · exact fun a hs hb ha hop => general_from_frame_ok_hasparam A cv f a hs hb ha hop
  · exact fun a hs hb ha hop => general_from_frame_ok_noparam A cv f a hs hb ha hop

lemma slice_7_0 (f : ForwardFrame) : f.slice 7 0 = f.data % 256 := by
  unfold ForwardFrame.slice
  norm_num

lemma slice_15_8 (f : ForwardFrame) : f.slice 15 8 = f.data / 256 % 256 := by
  unfold ForwardFrame.slice
  norm_num

lemma slice_6_1 (f : ForwardFrame) : f.slice 6 1 = f.data / 2 % 64 := by
  unfold ForwardFrame.slice
  norm_num

lemma bit_eq_true_iff (f : ForwardFrame) (i : Nat) :
    f.bit i = true ↔ f.data / 2 ^ i % 2 = 1 := by
  simp [ForwardFrame.bit]

lemma bit_eq_false_iff (f : ForwardFrame) (i : Nat) :
    f.bit i = false ↔ ¬f.data / 2 ^ i % 2 = 1 := by
  simp [ForwardFrame.bit]

lemma general_roundtrip_hasparam {Addr : Type} (A : AddressScheme Addr)
    (d : Addr) (hsize : ∀ x g, (A.add_to_frame x g).size = g.size)
    (hlow : ∀ x g, (A.add_to_frame x g).data % 512 = g.data % 512)
    (hdec : ∀ n, A.from_frame (A.add_to_frame d (ForwardFrame.mk16 n)) = some d)
    (j p : Nat) (hj : j < 16) (hp : p < 16) :
    GeneralCommand.from_frame A false (some (16 * j)) true
        (A.add_to_frame d (ForwardFrame.mk16 (0x100 ||| 16 * j ||| p))) =
      some ⟨d, p, A.add_to_frame d (ForwardFrame.mk16 (0x100 ||| 16 * j ||| p))⟩ := by
  rw [lor_nibble j hj p hp]
  set F := A.add_to_frame d (ForwardFrame.mk16 (256 + 16 * j + p)) with hF
  have hFs : F.size = 16 := by rw [hF, hsize]; rfl
  have hFd : F.data % 512 = 256 + 16 * j + p := by
    rw [hF, hlow]
    show (256 + 16 * j + p) % 65536 % 512 = 256 + 16 * j + p
    omega
  have hb : F.bit 8 = true := by
    rw [bit_eq_true_iff]
    have h28 : (2 : Nat) ^ 8 = 256 := by norm_num
    rw [h28]
    omega
  have hsl : F.slice 7 0 = 16 * j + p := by rw [slice_7_0]; omega
  have hop : F.slice 7 0 &&& 0xf0 = 16 * j := by
    rw [hsl]
    exact (and_nibble j hj p hp).1
  have hparam : F.slice 7 0 &&& 0x0f = p := by
    rw [hsl]
    exact (and_nibble j hj p hp).2
  have hmatch := general_from_frame_ok_hasparam A (16 * j) F d hFs hb
    (hdec (256 + 16 * j + p)) hop
  rw [hparam, lor_nibble j hj p hp] at hmatch
  exact hmatch

lemma general_roundtrip_noparam {Addr : Type} (A : AddressScheme Addr)
    (d : Addr) (hsize : ∀ x g, (A.add_to_frame x g).size = g.size)
    (hlow : ∀ x g, (A.add_to_frame x g).data % 512 = g.data % 512)
    (hdec : ∀ n, A.from_frame (A.add_to_frame d (ForwardFrame.mk16 n)) = some d)
    (cv : Nat) (hcv : cv < 256) :
    GeneralCommand.from_frame A false (some cv) false
        (A.add_to_frame d (ForwardFrame.mk16 (0x100 ||| cv ||| 0))) =
      some ⟨d, 0, A.add_to_frame d (ForwardFrame.mk16 (0x100 ||| cv ||| 0))⟩ := by
  rw [lor_byte cv hcv]
  set F := A.add_to_frame d (ForwardFrame.mk16 (256 + cv)) with hF
  have hFs : F.size = 16 := by rw [hF, hsize]; rfl
  have hFd : F.data % 512 = 256 + cv := by
    rw [hF, hlow]
    show (256 + cv) % 65536 % 512 = 256 + cv
    omega
  have hb : F.bit 8 = true := by
    rw [bit_eq_true_iff]
    have h28 : (2 : Nat) ^ 8 = 256 := by norm_num
    rw [h28]
    omega
  have hsl : F.slice 7 0 = cv := by rw [slice_7_0]; omega
  have hmatch := general_from_frame_ok_noparam A cv F d hFs hb
    (hdec (256 + cv)) hsl
  rw [lor_byte cv hcv] at hmatch
  exact hmatch

lemma special_init_hasparam_ok (p : Nat) (hp : p ≤ 255) :
    SpecialCommand.init true [(p : Int)] = Except.ok ⟨p⟩ := by
  unfold SpecialCommand.init
  have h1 : ¬((p : Int) < 0 ∨ (p : Int) > 255) := by omega
  simp [h1, hp]

lemma short_init_ok (a : Nat) (ha : a ≤ 63) :
    ShortAddrSpecialCommand.init (a : Int) = Except.ok ⟨a⟩ := by
  unfold ShortAddrSpecialCommand.init
  have h1 : ¬((a : Int) < 0 ∨ (a : Int) > 63) := by omega
  simp [h1, ha]

lemma mkBytes16_data (hi lo : Nat) (h1 : hi < 256) (h2 : lo < 256) :
    (ForwardFrame.mkBytes16 hi lo).data = hi * 256 + lo := by
  unfold ForwardFrame.mkBytes16
  simp [Nat.mod_eq_of_lt h1, Nat.mod_eq_of_lt h2]

lemma special_roundtrip_hasparam (cv p : Nat) (hcv : cv < 256) (hp : p < 256) :
    SpecialCommand.from_frame false (some cv) true
      (SpecialCommand.frame cv ⟨p⟩) = some ⟨p⟩ := by
  have hd : (SpecialCommand.frame cv ⟨p⟩).data = cv * 256 + p :=
    mkBytes16_data cv p hcv hp
  have hsl158 : (SpecialCommand.frame cv ⟨p⟩).slice 15 8 = cv := by
    rw [slice_15_8, hd]; omega
  have hsl70 : (SpecialCommand.frame cv ⟨p⟩).slice 7 0 = p := by
    rw [slice_7_0, hd]; omega
  have hsz : (SpecialCommand.frame cv ⟨p⟩).size = 16 := rfl
  simp [SpecialCommand.from_frame, hsz, hsl158, hsl70,
    special_init_hasparam_ok p (by omega), Except.toOption]

lemma special_roundtrip_noparam (cv : Nat) (hcv : cv < 256) :
    SpecialCommand.from_frame false (some cv) false
      (SpecialCommand.frame cv ⟨0⟩) = some ⟨0⟩ := by
  have hd : (SpecialCommand.frame cv ⟨0⟩).data = cv * 256 + 0 :=
    mkBytes16_data cv 0 hcv (by omega)
  have hsl158 : (SpecialCommand.frame cv ⟨0⟩).slice 15 8 = cv := by
    rw [slice_15_8, hd]; omega
  have hsl70 : (SpecialCommand.frame cv ⟨0⟩).slice 7 0 = 0 := by
    rw [slice_7_0, hd]; omega
  have hsz : (SpecialCommand.frame cv ⟨0⟩).size = 16 := rfl
  simp [SpecialCommand.from_frame, hsz, hsl158, hsl70,
    SpecialCommand.init, Except.toOption]

lemma short_roundtrip (cv a : Nat) (hcv : cv < 256) (ha : a < 64) :
    ShortAddrSpecialCommand.from_frame false (some cv)
      (ShortAddrSpecialCommand.frame cv ⟨a⟩) = some ⟨a⟩ := by
  have hd : (ShortAddrSpecialCommand.frame cv ⟨a⟩).data =
      cv * 256 + (2 * a + 1) := by
    unfold ShortAddrSpecialCommand.frame
    rw [show ((⟨a⟩ : ShortAddrCmd).address <<< 1 ||| 1) = 2 * a + 1 from
      shl_or_one a ha]
    exact mkBytes16_data cv (2 * a + 1) hcv (by omega)
  have hsl158 : (ShortAddrSpecialCommand.frame cv ⟨a⟩).slice 15 8 = cv := by
    rw [slice_15_8, hd]; omega
  have hb7 : (ShortAddrSpecialCommand.frame cv ⟨a⟩).bit 7 = false := by
    rw [bit_eq_false_iff]
    have h27 : (2 : Nat) ^ 7 = 128 := by norm_num
    rw [h27, hd]
    omega
  have hb0 : (ShortAddrSpecialCommand.frame cv ⟨a⟩).bit 0 = true := by
    rw [bit_eq_true_iff]
    have h20 : (2 : Nat) ^ 0 = 1 := by norm_num
    rw [h20, hd]
    omega
  have hsl61 : (ShortAddrSpecialCommand.frame cv ⟨a⟩).slice 6 1 = a := by
    rw [slice_6_1, hd]; omega
  have hsz : (ShortAddrSpecialCommand.frame cv ⟨a⟩).size = 16 := rfl
  simp [ShortAddrSpecialCommand.from_frame, hsz, hsl158, hb7, hb0, hsl61,
    short_init_ok a (by omega), Except.toOption]

/-- C1: for every concrete command subtype and every parameter or
address in its declared valid range, encoding the parameters into a
16-bit forward frame and then decoding that frame with the same
subtype's `from_frame` recovers the very same command — for
`GeneralCommand` subtypes under the hypothesis that the address
abstraction writes only the addressing field (bits above the low 9)
and decodes the written field back to the encoded destination. -/
theorem roundtrip_decode_encode :
    (∀ {Addr : Type} (A : AddressScheme Addr) (d : Addr),
      (∀ x g, (A.add_to_frame x g).size = g.size) →
      (∀ x g, (A.add_to_frame x g).data % 512 = g.data % 512) →
      (∀ n, A.from_frame (A.add_to_frame d (ForwardFrame.mk16 n)) = some d) →
      (∀ cv p : Nat, cv < 256 → cv % 16 = 0 → p < 16 →
        ∀ c, GeneralCommand.init A (some cv) true d [(p : Int)] = Except.ok c →
          GeneralCommand.from_frame A false (some cv) true c.frame = some c) ∧
      (∀ cv : Nat, cv < 256 →
        ∀ c, GeneralCommand.init A (some cv) false d [] = Except.ok c →
          GeneralCommand.from_frame A false (some cv) false c.frame = some c)) ∧
    (∀ cv p : Nat, cv < 256 → p < 256 →
      ∀ c, SpecialCommand.init true [(p : Int)] = Except.ok c →
        SpecialCommand.from_frame false (some cv) true
          (SpecialCommand.frame cv c) = some c) ∧
    (∀ cv : Nat, cv < 256 →
      ∀ c, SpecialCommand.init false [] = Except.ok c →
        SpecialCommand.from_frame false (some cv) false
          (SpecialCommand.frame cv c) = some c) ∧
    (∀ cv a : Nat, cv < 256 → a < 64 →
      ∀ c, ShortAddrSpecialCommand.init (a : Int) = Except.ok c →
        ShortAddrSpecialCommand.from_frame false (some cv)
          (ShortAddrSpecialCommand.frame cv c) = some c) := by
  refine ⟨fun A d hsize hlow hdec => ⟨?_, ?_⟩, ?_, ?_, ?_⟩
  · intro cv p hcv hcv16 hp c hinit
    rw [general_init_hasparam_ok A cv d p (by omega)] at hinit
    injection hinit with h
    subst h
    obtain ⟨j, rfl⟩ : ∃ j, cv = 16 * j := ⟨cv / 16, by omega⟩
    exact general_roundtrip_hasparam A d hsize hlow hdec j p (by omega) hp
  · intro cv hcv c hinit
    rw [general_init_noparam_ok] at hinit
    injection hinit with h
    subst h
    exact general_roundtrip_noparam A d hsize hlow hdec cv hcv
  · intro cv p hcv hp c hinit
    rw [special_init_hasparam_ok p (by omega)] at hinit
    injection hinit with h
    subst h
    exact special_roundtrip_hasparam cv p hcv hp
  · intro cv hcv c hinit
    have h0 : SpecialCommand.init false [] = Except.ok ⟨0⟩ := rfl
    rw [h0] at hinit
    injection hinit with h
    subst h
    exact special_roundtrip_noparam cv hcv
  · intro cv a hcv ha c hinit
    rw [short_init_ok a (by omega)] at hinit
    injection hinit with h
    subst h
    exact short_roundtrip cv a hcv ha

lemma shortScheme_size (x : Nat) (g : ForwardFrame) :
    (shortScheme.add_to_frame x g).size = g.size :=
  rfl

lemma shortScheme_low (x : Nat) (g : ForwardFrame) :
    (shortScheme.add_to_frame x g).data % 512 = g.data % 512 := by
  show (g.data % 512 + x % 64 * 2 % 128 * 512) % 512 = g.data % 512
  omega

lemma shortScheme_dec (d : Nat) (hd : d < 64) (n : Nat) :
    shortScheme.from_frame (shortScheme.add_to_frame d (ForwardFrame.mk16 n)) =
      some d := by
  show (if (16 : Nat) = 16 ∧
      (n % 65536 % 512 + d % 64 * 2 % 128 * 512) / 512 % 2 = 0 then
      some ((n % 65536 % 512 + d % 64 * 2 % 128 * 512) / 1024) else none) =
    some d
  rw [if_pos ⟨rfl, by omega⟩]
  congr 1
  omega

/-- C1 witness: the round-trip theorem applied at concrete commands —
opcode `0x10` with parameter 3 to short address 5, a no-parameter
general command with opcode 37, special commands with opcode `0xa7`,
and a short-address special command with opcode `0xb1`, address 63. -/
theorem roundtrip_decode_encode_witness :
    GeneralCommand.from_frame shortScheme false (some 16) true
        (shortScheme.add_to_frame 5 (ForwardFrame.mk16 (0x100 ||| 16 ||| 3))) =
      some ⟨5, 3,
        shortScheme.add_to_frame 5 (ForwardFrame.mk16 (0x100 ||| 16 ||| 3))⟩ ∧
    GeneralCommand.from_frame shortScheme false (some 37) false
        (shortScheme.add_to_frame 5 (ForwardFrame.mk16 (0x100 ||| 37 ||| 0))) =
      some ⟨5, 0,
        shortScheme.add_to_frame 5 (ForwardFrame.mk16 (0x100 ||| 37 ||| 0))⟩ ∧
    SpecialCommand.from_frame false (some 0xa7) true
        (SpecialCommand.frame 0xa7 ⟨200⟩) = some ⟨200⟩ ∧
    SpecialCommand.from_frame false (some 0xa7) false
        (SpecialCommand.frame 0xa7 ⟨0⟩) = some ⟨0⟩ ∧
    ShortAddrSpecialCommand.from_frame false (some 0xb1)
        (ShortAddrSpecialCommand.frame 0xb1 ⟨63⟩) = some ⟨63⟩ :=
  ⟨(roundtrip_decode_encode.1 shortScheme 5 shortScheme_size shortScheme_low
      (shortScheme_dec 5 (by decide))).1 16 3 (by decide) (by decide)
      (by decide) ⟨5, 3, _⟩ rfl,
   (roundtrip_decode_encode.1 shortScheme 5 shortScheme_size shortScheme_low
      (shortScheme_dec 5 (by decide))).2 37 (by decide) ⟨5, 0, _⟩ rfl,
   roundtrip_decode_encode.2.1 0xa7 200 (by decide) (by decide) ⟨200⟩ rfl,
   roundtrip_decode_encode.2.2.1 0xa7 (by decide) ⟨0⟩ rfl,
   roundtrip_decode_encode.2.2.2 0xb1 63 (by decide) (by decide) ⟨63⟩ rfl⟩

/-- C8 witness: the theorem applied at concrete frames — a frame of
the wrong size, and a full decode of the frame that encodes opcode
`0x10`, parameter 3, short address 5. -/
theorem general_from_frame_spec_witness :
    GeneralCommand.from_frame shortScheme false (some 16) true ⟨8, 0⟩ = none ∧
    GeneralCommand.from_frame shortScheme false (some 16) true ⟨16, 5395⟩ =
      some ⟨5, 3, shortScheme.add_to_frame 5 (ForwardFrame.mk16 275)⟩ := by
  refine ⟨(general_from_frame_spec shortScheme 16 true ⟨8, 0⟩).1 (by decide), ?_⟩
  have h := (general_from_frame_spec shortScheme 16 true ⟨16, 5395⟩).2.2.2.2.2.1
    5 rfl (by decide) (by decide) (by decide)
  simpa using h

/-- C10 witness: the theorem applied to a concrete intermediate entry
and a concrete registry. -/
theorem intermediate_no_match_spec_witness :
    GeneralCommand.from_frame shortScheme true (some 16) true ⟨16, 275⟩ = none ∧
    Command.from_frame
      ([] ++ (⟨0, fun _ => (none : Option Nat)⟩ : RegEntry Nat) ::
        [⟨0, fun _ => some 2⟩]) ⟨16, 7⟩ 0 =
      Command.from_frame ([] ++ [(⟨0, fun _ => some 2⟩ : RegEntry Nat)]) ⟨16, 7⟩ 0 :=
  ⟨(intermediate_no_match_spec shortScheme).1 (some 16) true ⟨16, 275⟩,
   (intermediate_no_match_spec shortScheme).2.2.2.2.2.2 []
     ⟨0, fun _ => (none : Option Nat)⟩ [⟨0, fun _ => some 2⟩] ⟨16, 7⟩ 0
     fun _ => rfl⟩

end Dali
